import Mathlib

/-!
Verification of the ECR (Experiment Control & Record) core against its
specification.  The Python source under `src/ecr/core/` is shallowly
embedded below: pure helpers become Lean functions, the stateful engine
becomes explicit state passing, filesystem contents become explicit
lists, and Python exceptions become `Except` / error constructors.
Times are abstract `Nat` ticks supplied by the caller (the code reads
wall clocks; the claims under study never depend on actual time values).
-/

namespace ECR

/-! ## Parameter substitution (src/ecr/core/profiles.py, substitute_parameters)

`substitute_parameters` applies `re.sub` with pattern `\{(\w+)\}` and a
replacer that returns `params.get(name, match.group(0))`.  A match is a
left brace, a non-empty maximal run of word characters, then a right
brace; matches are found left to right and are non-overlapping, and the
replacement text is never rescanned.  Braces are written via `Char.ofNat`
(123 / 125).  The scanner is written with an explicit fuel argument equal
to the input length so that it is structural; every recursive call
shrinks the list, so the fuel never runs out. -/

def lbrace : Char := Char.ofNat 123

def rbrace : Char := Char.ofNat 125

/-- ASCII reading of the regex word class `[A-Za-z0-9_]` used by `\w`
in the source pattern. -/
def isWordChar (c : Char) : Bool := c.isAlpha || c.isDigit || c = '_'

/-- Python `dict.get` over an association list with unique keys
(first match wins). -/
def lookupParam : List (String × String) → String → Option String
  | [], _ => none
  | (k0, v0) :: rest, k => if k0 = k then some v0 else lookupParam rest k

def substGo (params : List (String × String)) : Nat → List Char → List Char
  | 0, _ => []
  | _ + 1, [] => []
  | fuel + 1, c :: rest =>
    if c = lbrace then
      match rest.dropWhile isWordChar with
      | d :: tail =>
        if d = rbrace then
          if (rest.takeWhile isWordChar).isEmpty then
            c :: substGo params fuel rest
          else
            (match lookupParam params (String.mk (rest.takeWhile isWordChar)) with
             | some v => v.data
             | none => lbrace :: (rest.takeWhile isWordChar ++ [rbrace]))
            ++ substGo params fuel tail
        else c :: substGo params fuel rest
      | [] => c :: substGo params fuel rest
    else c :: substGo params fuel rest

def substChars (params : List (String × String)) (l : List Char) : List Char :=
  substGo params l.length l

/-- `substitute_parameters(template, params)` from profiles.py. -/
def substitute_parameters (template : String) (params : List (String × String)) : String :=
  String.mk (substChars params template.data)

/-- The match list of `re.findall(r'\{(\w+)\}', template)` (the source's
`extract_parameters` additionally wraps this in `list(set(...))`). -/
def extractGo : Nat → List Char → List String
  | 0, _ => []
  | _ + 1, [] => []
  | fuel + 1, c :: rest =>
    if c = lbrace then
      match rest.dropWhile isWordChar with
      | d :: tail =>
        if d = rbrace then
          if (rest.takeWhile isWordChar).isEmpty then extractGo fuel rest
          else String.mk (rest.takeWhile isWordChar) :: extractGo fuel tail
        else extractGo fuel rest
      | [] => extractGo fuel rest
    else extractGo fuel rest

def extractFound (l : List Char) : List String := extractGo l.length l

/-- Whether `re.search(r'\{(\w+)\}', s)` would find a match: the text
contains a `{name}` token. -/
def hasToken : List Char → Bool
  | [] => false
  | c :: rest =>
    if c = lbrace then
      match rest.dropWhile isWordChar with
      | d :: _ =>
        if d = rbrace then
          if (rest.takeWhile isWordChar).isEmpty then hasToken rest else true
        else hasToken rest
      | [] => hasToken rest
    else hasToken rest

/-- No brace character occurs in the char list. -/
def braceFree (s : List Char) : Bool := s.all fun c => !(c = lbrace || c = rbrace)

/-- Structured view of a template: an alternation of literal chunks and
`\x7bname\x7d` placeholders.  Used to state the amended form of the
"no token remains" property. -/
inductive Tmpl where
  | nil : Tmpl
  | lit (s : List Char) (rest : Tmpl) : Tmpl
  | hole (nm : List Char) (rest : Tmpl) : Tmpl

def renderT : Tmpl → List Char
  | .nil => []
  | .lit s rest => s ++ renderT rest
  | .hole nm rest => lbrace :: (nm ++ rbrace :: renderT rest)

/-- Well-formed structured template: literal chunks contain no brace and
every hole name is a non-empty word-character run. -/
def wfT : Tmpl → Bool
  | .nil => true
  | .lit s rest => braceFree s && wfT rest
  | .hole nm rest => !nm.isEmpty && nm.all isWordChar && wfT rest

/-- Every hole name of the template is a key of the parameter map. -/
def holesCovered (params : List (String × String)) : Tmpl → Bool
  | .nil => true
  | .lit _ rest => holesCovered params rest
  | .hole nm rest => (lookupParam params (String.mk nm)).isSome && holesCovered params rest

/-- The substitution a reader expects on the structured view: each hole
is replaced by its value, unmatched holes stay verbatim. -/
def substExpected (params : List (String × String)) : Tmpl → List Char
  | .nil => []
  | .lit s rest => s ++ substExpected params rest
  | .hole nm rest =>
    (match lookupParam params (String.mk nm) with
     | some v => v.data
     | none => lbrace :: (nm ++ [rbrace]))
    ++ substExpected params rest

def valuesBraceFree (params : List (String × String)) : Bool :=
  params.all fun kv => braceFree kv.2.data

/-! ## Event stream (src/ecr/core/events.py)

An `Event` carries `seq`, `timestamp`, `event_type`, `data`; the file
`events.jsonl` is a list of lines, each either a well-formed serialized
event or arbitrary other text (malformed / truncated lines).
`EventStream.__init__` counts the non-empty lines of an existing file
(`_count_events` never parses JSON); `append` increments the counter
under a lock and writes one well-formed line. -/

inductive JVal where
  | s (v : String)
  | m (kvs : List (String × String))
deriving DecidableEq, Repr

structure Event where
  seq : Nat
  timestamp : Nat
  event_type : String
  data : List (String × JVal)
deriving DecidableEq, Repr

/-- One line of events.jsonl: a well-formed serialized event, or any
other line content (malformed or truncated lines land in `raw`). -/
inductive RawLine where
  | ev (e : Event)
  | raw (s : String)
deriving DecidableEq, Repr

/-- Whether `line.strip()` is truthy in `_count_events` (a serialized
event line is always non-empty). -/
def lineNonEmpty : RawLine → Bool
  | .ev _ => true
  | .raw s => s.data.any fun c => !c.isWhitespace

/-- `EventStream._count_events`: count the non-empty lines. -/
def countEvents (file : List RawLine) : Nat := (file.filter lineNonEmpty).length

structure StreamState where
  file : List RawLine
  seq : Nat
deriving DecidableEq, Repr

/-- `EventStream.__init__`: `none` models a path that does not exist
yet; otherwise initialize `_seq` from `_count_events`. -/
def streamInit (existing : Option (List RawLine)) : StreamState :=
  match existing with
  | none => { file := [], seq := 0 }
  | some f => { file := f, seq := countEvents f }

structure AppendOp where
  event_type : String
  timestamp : Nat
  data : List (String × JVal)
deriving DecidableEq, Repr

/-- `EventStream.append`: bump the counter, build the event, write one
well-formed line at the end of the file. -/
def streamAppend (s : StreamState) (op : AppendOp) : StreamState × Event :=
  let e : Event :=
    { seq := s.seq + 1, timestamp := op.timestamp
      event_type := op.event_type, data := op.data }
  ({ file := s.file ++ [.ev e], seq := s.seq + 1 }, e)

def appendAll (s : StreamState) (ops : List AppendOp) : StreamState :=
  ops.foldl (fun st op => (streamAppend st op).1) s

def seqOfLine : RawLine → Option Nat
  | .ev e => some e.seq
  | .raw _ => none

/-- Two well-formed lines and one malformed trailing line, for the C8
counterexample. -/
def demoFile8 : List RawLine :=
  [.ev { seq := 1, timestamp := 100, event_type := "run_started", data := [] },
   .ev { seq := 2, timestamp := 101, event_type := "note", data := [("text", .s "hi")] },
   .raw "xyz-not-json"]

/-! ## Profile loading (src/ecr/core/profiles.py, TargetProfile.from_yaml)

The result of `yaml.safe_load` is embedded as a dynamic value `YVal`.
Python `dict.get(key, default)` on a non-dict (including `None`) raises
`AttributeError`; on a dict it returns the stored value or the default.
`from_yaml` reads the connection, commands and background_collectors
sections with per-key defaults, then name and description, exactly in
source order; fields stay dynamic (`YVal`) as in Python. -/

inductive PyErr where
  | attributeError
deriving DecidableEq, Repr

inductive YVal where
  | str (s : String)
  | int (n : Int)
  | bool (b : Bool)
  | null
  | map (entries : List (String × YVal))
  | list (items : List YVal)

def lookupY : List (String × YVal) → String → Option YVal
  | [], _ => none
  | (k0, v0) :: rest, k => if k0 = k then some v0 else lookupY rest k

def YVal.isMap : YVal → Bool
  | .map _ => true
  | _ => false

/-- Python `v.get(key, default)`: only dicts have `.get`. -/
def pyGetD (v : YVal) (key : String) (default : YVal) : Except PyErr YVal :=
  match v with
  | .map es => .ok ((lookupY es key).getD default)
  | _ => .error .attributeError

/-- Python `v.items()`: only dicts have `.items`. -/
def pyItems (v : YVal) : Except PyErr (List (String × YVal)) :=
  match v with
  | .map es => .ok es
  | _ => .error .attributeError

structure ConnectionProfileM where
  host : YVal
  port : YVal
  user : YVal
  key_file : YVal
  password : YVal
  timeout : YVal

structure CommandDefinitionM where
  name : String
  description : YVal
  command : YVal
  run : YVal
  artifacts : YVal
  timeout : YVal

structure CollectorDefinitionM where
  name : String
  command : YVal
  run : YVal
  interval : YVal
  timeout : YVal

structure TargetProfileM where
  name : YVal
  description : YVal
  connection : ConnectionProfileM
  commands : List (String × CommandDefinitionM)
  background_collectors : List (String × CollectorDefinitionM)
  filepath : String

/-- `os.path.basename` for the forward-slash paths the store builds. -/
def basenameP (p : String) : String :=
  String.mk ((p.data.reverse.takeWhile fun c => c != '/').reverse)

/-- Lines 62-70 of profiles.py: parse the `connection` section. -/
def parseConnection (conn_data : YVal) : Except PyErr ConnectionProfileM := do
  let host ← pyGetD conn_data "host" (.str "localhost")
  let port ← pyGetD conn_data "port" (.int 22)
  let user ← pyGetD conn_data "user" (.str "root")
  let key_file ← pyGetD conn_data "key_file" .null
  let password ← pyGetD conn_data "password" .null
  let timeout ← pyGetD conn_data "timeout" (.int 30)
  return { host := host, port := port, user := user
           key_file := key_file, password := password, timeout := timeout }

def parseCommand (nm : String) (cd : YVal) : Except PyErr CommandDefinitionM := do
  let description ← pyGetD cd "description" (.str "")
  let command ← pyGetD cd "command" (.str "")
  let runLoc ← pyGetD cd "run" (.str "host")
  let artifacts ← pyGetD cd "artifacts" (.list [])
  let timeout ← pyGetD cd "timeout" (.int 60)
  return { name := nm, description := description, command := command
           run := runLoc, artifacts := artifacts, timeout := timeout }

def parseCollector (nm : String) (cd : YVal) : Except PyErr CollectorDefinitionM := do
  let command ← pyGetD cd "command" (.str "")
  let runLoc ← pyGetD cd "run" (.str "target")
  let interval ← pyGetD cd "interval" (.int 60)
  let timeout ← pyGetD cd "timeout" (.int 10)
  return { name := nm, command := command, run := runLoc
           interval := interval, timeout := timeout }

def parseCommands (v : YVal) : Except PyErr (List (String × CommandDefinitionM)) := do
  let es ← pyItems v
  es.mapM fun kv => do
    let c ← parseCommand kv.1 kv.2
    return (kv.1, c)

def parseCollectors (v : YVal) : Except PyErr (List (String × CollectorDefinitionM)) := do
  let es ← pyItems v
  es.mapM fun kv => do
    let c ← parseCollector kv.1 kv.2
    return (kv.1, c)

/-- `TargetProfile.from_yaml`, applied to the already-parsed YAML value
(the file read and `yaml.safe_load` are external I/O). -/
def fromYamlData (filepath : String) (data : YVal) : Except PyErr TargetProfileM := do
  let conn_data ← pyGetD data "connection" (.map [])
  let connection ← parseConnection conn_data
  let cmds_val ← pyGetD data "commands" (.map [])
  let commands ← parseCommands cmds_val
  let colls_val ← pyGetD data "background_collectors" (.map [])
  let collectors ← parseCollectors colls_val
  let name ← pyGetD data "name" (.str (basenameP filepath))
  let description ← pyGetD data "description" (.str "")
  return { name := name, description := description, connection := connection
           commands := commands, background_collectors := collectors
           filepath := filepath }

/-! ## SSH session (src/ecr/core/ssh_client.py)

The wrapper owns one `threading.Lock` (NOT an RLock): a second acquire
by the thread that already holds it blocks forever.  `execute`,
`get_file`, `put_file` and `file_exists` each take the lock and then
call `_ensure_connected`, which calls `connect()` when the flag is down
or the transport is gone — and `connect()` takes the same lock again.
`lockHeld` tracks whether the current thread holds the session lock;
acquiring a held lock yields the `deadlock` outcome.  The network is a
deterministic oracle `netOk` (first connect attempt succeeds, or every
attempt fails); remote execution outcomes are supplied by `RemoteExec`.
Callback firings are recorded in `trace`. -/

structure CommandResultM where
  command : String
  exit_code : Int
  stdout : String
  stderr : String
deriving DecidableEq, Repr

structure SshState where
  lockHeld : Bool
  connected : Bool
  clientSet : Bool
  transportActive : Bool
  trace : List String
deriving DecidableEq, Repr

inductive SshOutcome (α : Type) where
  | ok (v : α) (s : SshState)
  | deadlock (s : SshState)
deriving DecidableEq, Repr

structure RemoteExec where
  raises : Bool
  exitCode : Int
  out : String
  err : String
deriving DecidableEq, Repr

/-- `SSHClientWrapper.connect`: take the lock, then up to 3 attempts.
With `netOk` the first attempt succeeds (fire `on_connect`); otherwise
attempts 1 and 2 fire `on_retry` and sleep, attempt 3 clears the flag,
fires `on_disconnect` and returns failure. -/
def connectM (netOk : Bool) (s : SshState) : SshOutcome Bool :=
  if s.lockHeld then .deadlock s
  else
    let s1 : SshState := { s with lockHeld := true }
    if netOk then
      .ok true { s1 with
        clientSet := true, connected := true, transportActive := true
        trace := s1.trace ++ ["on_connect"], lockHeld := false }
    else
      .ok false { s1 with
        clientSet := true, connected := false
        trace := s1.trace ++
          ["on_retry:1", "on_retry:2", "on_disconnect:Failed after 3 attempts"]
        lockHeld := false }

/-- `SSHClientWrapper._ensure_connected`, as invoked by the operations
(i.e. with the session lock already held by this thread). -/
def ensureConnectedM (netOk : Bool) (s : SshState) : SshOutcome Bool :=
  if !s.connected || !s.clientSet then connectM netOk s
  else if !s.transportActive then
    connectM netOk { s with trace := s.trace ++ ["on_disconnect:Connection lost"] }
  else .ok true s

/-- `SSHClientWrapper.execute`: take the session lock, ensure the
connection, then run the remote command (its outcome supplied by `io`).
Timing fields of `CommandResult` are omitted (wall clock). -/
def executeM (netOk : Bool) (io : RemoteExec) (s : SshState) (cmd : String) :
    SshOutcome CommandResultM :=
  if s.lockHeld then .deadlock s
  else
    let s1 : SshState := { s with lockHeld := true }
    match ensureConnectedM netOk s1 with
    | .deadlock s2 => .deadlock s2
    | .ok false s2 =>
      .ok { command := cmd, exit_code := -1, stdout := "", stderr := "Connection failed" }
        { s2 with lockHeld := false }
    | .ok true s2 =>
      if io.raises then
        .ok { command := cmd, exit_code := -1, stdout := "", stderr := io.err }
          { s2 with connected := false, lockHeld := false }
      else
        .ok { command := cmd, exit_code := io.exitCode, stdout := io.out, stderr := io.err }
          { s2 with lockHeld := false }

/-- A session whose transport is alive. -/
def sshLive : SshState :=
  { lockHeld := false, connected := true, clientSet := true
    transportActive := true, trace := [] }

/-- A session that connected successfully, then had its transport forced
closed between two commands (the scenario of the reconnect claim). -/
def sshDropped : SshState :=
  { lockHeld := false, connected := true, clientSet := true
    transportActive := false, trace := [] }

def ioEcho : RemoteExec := { raises := false, exitCode := 0, out := "ok", err := "" }

/-! ## Run storage artifacts (src/ecr/core/storage.py, RunStorage.add_artifact)

The artifacts directory is modelled as the list of filenames it
contains.  `add_artifact(local_path, original_remote_path)` derives the
destination name from `basename(local_path)` (the second argument is
unused in the source), probes `name_1`, `name_2`, ... before the
extension while the name exists, copies, and returns the path relative
to the run directory.  The engine (engine.py, execute_command) first
fetches into `artifacts/_temp_<basename(remote)>`, then calls
`add_artifact` with that temp path and finally removes the temp file. -/

/-- `os.path.splitext` for plain filenames (no slash): split before the
last dot unless every character before that dot is itself a dot. -/
def splitextCore (cs : List Char) : List Char × List Char :=
  match cs.reverse.dropWhile (fun c => c != '.') with
  | [] => (cs, [])
  | _dot :: beforeRev =>
    if beforeRev.all (fun c => c = '.') then (cs, [])
    else (beforeRev.reverse, '.' :: (cs.reverse.takeWhile fun c => c != '.').reverse)

def splitextP (filename : String) : String × String :=
  let p := splitextCore filename.data
  (String.mk p.1, String.mk p.2)

/-- The `while os.path.exists(dest_path)` loop of `add_artifact`: each
round rebuilds the candidate from `splitext(filename)` and the counter.
Distinct counters give distinct names, so `existing.length + 1` rounds
of fuel always suffice. -/
def addArtifactFind (existing : List String) (filename : String) :
    Nat → Nat → String → String
  | 0, _, dest => dest
  | fuel + 1, counter, dest =>
    if existing.contains dest then
      let p := splitextP filename
      addArtifactFind existing filename fuel (counter + 1)
        (p.1 ++ "_" ++ toString counter ++ p.2)
    else dest

/-- `RunStorage.add_artifact` over the artifacts-directory listing:
returns the manifest-relative path and the directory after the copy. -/
def add_artifact (existing : List String) (local_path : String) : String × List String :=
  let filename := basenameP local_path
  let dest := addArtifactFind existing filename (existing.length + 1) 1 filename
  ("artifacts/" ++ dest, existing ++ [dest])

/-- One successful artifact pull of `execute_command` (engine.py lines
381-403): fetch the remote file into the scratch name
`_temp_<basename(remote_path)>` inside `artifacts/`, call
`add_artifact` on that temp path, then `os.remove` the temp file.
Returns the recorded `local_path` and the directory contents. -/
def pullArtifact (existing : List String) (remote_path : String) : String × List String :=
  let tempName := "_temp_" ++ basenameP remote_path
  let afterFetch := existing ++ [tempName]
  let r := add_artifact afterFetch tempName
  (r.1, r.2.filter fun f => f != tempName)

/-- The two pulls of the collision scenario: `/a/x.log` then `/b/x.log`. -/
def pullA : String × List String := pullArtifact [] "/a/x.log"

def pullB : String × List String := pullArtifact pullA.2 "/b/x.log"

/-! ## Experiment engine (src/ecr/core/engine.py)

Engine state: the profile store (name to YAML text; the loaded profile
object plays no role in the operations modelled here), the runs
directory (per-run manifest, profile snapshot, events file) and the
in-memory `_active_runs` map.  Python dicts become association lists
with unique keys: update replaces in place or appends, delete removes
the key.  `EventType` is an enum; attribute access on it resolves
against the member table of events.py and raises `AttributeError` for a
missing member — exactly what `EventType.RUN_CREATED` in `create_run`
does, since events.py defines no such member. -/

def lookupA {α : Type} : List (String × α) → String → Option α
  | [], _ => none
  | (k0, v0) :: rest, k => if k0 = k then some v0 else lookupA rest k

def updateA {α : Type} : List (String × α) → String → α → List (String × α)
  | [], k, v => [(k, v)]
  | (k0, v0) :: rest, k, v =>
    if k0 = k then (k, v) :: rest else (k0, v0) :: updateA rest k v

def removeA {α : Type} (l : List (String × α)) (k : String) : List (String × α) :=
  l.filter fun p => p.1 != k

/-- The member table of `class EventType(str, Enum)` in events.py,
lines 15-60, in source order.  Note: no `RUN_CREATED` member. -/
def eventTypeMembers : List (String × String) :=
  [("RUN_STARTED", "run_started"), ("RUN_PAUSED", "run_paused"),
   ("RUN_RESUMED", "run_resumed"), ("RUN_COMPLETED", "run_completed"),
   ("RUN_INTERRUPTED", "run_interrupted"),
   ("STAGE_STARTED", "stage_started"), ("STAGE_COMPLETED", "stage_completed"),
   ("ACTION_STARTED", "action_started"), ("ACTION_COMPLETED", "action_completed"),
   ("ACTION_FAILED", "action_failed"),
   ("COMMAND_STARTED", "command_started"), ("COMMAND_OUTPUT", "command_output"),
   ("COMMAND_COMPLETED", "command_completed"), ("COMMAND_FAILED", "command_failed"),
   ("ARTIFACT_PULL_STARTED", "artifact_pull_started"),
   ("ARTIFACT_PULLED", "artifact_pulled"),
   ("ARTIFACT_PULL_FAILED", "artifact_pull_failed"),
   ("COLLECTOR_STARTED", "collector_started"),
   ("COLLECTOR_STOPPED", "collector_stopped"),
   ("COLLECTOR_OUTPUT", "collector_output"), ("COLLECTOR_ERROR", "collector_error"),
   ("CONNECTION_ESTABLISHED", "connection_established"),
   ("CONNECTION_LOST", "connection_lost"), ("CONNECTION_RETRY", "connection_retry"),
   ("NOTE", "note"), ("EDIT", "edit"), ("PARAMETER_SET", "parameter_set"),
   ("ERROR", "error")]

/-- Python attribute access `EventType.<attr>`: the member's value, or
`none` (an `AttributeError`) when no such member exists. -/
def eventTypeAttr (attr : String) : Option String := lookupA eventTypeMembers attr

/-- `RunManifest` from storage.py (timestamps as abstract ticks). -/
structure ManifestM where
  run_id : String
  name : String
  profile_name : String
  status : String
  created_at : Nat
  started_at : Option Nat
  completed_at : Option Nat
  parameters : List (String × String)
  artifacts : List (List (String × String))
  notes : String
deriving DecidableEq, Repr

/-- In-memory `RunContext` (the `storage`, `profile` and `events`
bindings are represented by the run's entries in the engine state; the
SSH wrapper is reduced to its presence, and each collector to its
`running` flag). -/
structure RunCtxM where
  run_id : String
  manifest : ManifestM
  profileName : String
  parameters : List (String × String)
  collectors : List (String × Bool)
  sshPresent : Bool
  is_running : Bool
  is_paused : Bool
deriving DecidableEq, Repr

structure EngineM where
  profiles : List (String × String)
  diskManifests : List (String × ManifestM)
  diskSnapshots : List (String × String)
  diskEvents : List (String × List Event)
  active : List (String × RunCtxM)
deriving DecidableEq, Repr

/-- Append one event to a run's events file; the stream's counter always
equals the number of lines of these engine-written files. -/
def appendEventM (d : List (String × List Event)) (rid : String)
    (etype : String) (ts : Nat) (data : List (String × JVal)) :
    List (String × List Event) :=
  match lookupA d rid with
  | some log =>
    updateA d rid (log ++ [{ seq := log.length + 1, timestamp := ts
                             event_type := etype, data := data }])
  | none => updateA d rid [{ seq := 1, timestamp := ts, event_type := etype, data := data }]

def eventsOf (s : EngineM) (rid : String) : List Event :=
  (lookupA s.diskEvents rid).getD []

/-- `ExperimentEngine.create_run`.  `genId` stands for
`generate_run_id(name)` (local wall clock).  After resolving the
profile, building the manifest and initializing storage, the source
evaluates `EventType.RUN_CREATED` to append the creation event. -/
def createRun (s : EngineM) (profile_name : String) (nameArg : Option String)
    (params : List (String × String)) (now : Nat) (genId : String) :
    Except PyErr (Option String × EngineM) :=
  match lookupA s.profiles profile_name with
  | none => .ok (none, s)
  | some yamlText =>
    let run_id := genId
    let m : ManifestM :=
      { run_id := run_id, name := nameArg.getD run_id, profile_name := profile_name
        status := "created", created_at := now, started_at := none
        completed_at := none, parameters := params, artifacts := [], notes := "" }
    let s1 : EngineM :=
      { s with diskManifests := updateA s.diskManifests run_id m
               diskSnapshots := updateA s.diskSnapshots run_id yamlText
               diskEvents := updateA s.diskEvents run_id [] }
    match eventTypeAttr "RUN_CREATED" with
    | none => .error .attributeError
    | some et =>
      let createdData : List (String × JVal) :=
        [("run_id", .s run_id), ("profile_name", .s profile_name),
         ("parameters", .m params)]
      .ok (some run_id,
        { s1 with diskEvents := appendEventM s1.diskEvents run_id et now createdData })

/-- `ExperimentEngine.get_run_context`: the active context if present,
else reconstruct from disk (manifest, profile, fresh event stream) with
no SSH session, no collectors and `is_running = false`. -/
def getRunContext (s : EngineM) (rid : String) : Option RunCtxM :=
  match lookupA s.active rid with
  | some ctx => some ctx
  | none =>
    match lookupA s.diskManifests rid with
    | none => none
    | some m =>
      match lookupA s.profiles m.profile_name with
      | none => none
      | some _ =>
        some { run_id := rid, manifest := m, profileName := m.profile_name
               parameters := m.parameters, collectors := [], sshPresent := false
               is_running := false, is_paused := false }

/-- `ExperimentEngine.pause_run`: reads only `_active_runs`; a run that
is not in the map (or not `is_running`) yields `False` with no state
change and no event.  (`EventType.RUN_PAUSED` resolves to
`"run_paused"`.) -/
def pauseRun (s : EngineM) (rid : String) (now : Nat) : Bool × EngineM :=
  match lookupA s.active rid with
  | none => (false, s)
  | some ctx =>
    if ctx.is_running = false then (false, s)
    else
      let m2 : ManifestM := { ctx.manifest with status := "paused" }
      let ctx2 : RunCtxM :=
        { ctx with collectors := ctx.collectors.map fun p => (p.1, false)
                   is_running := false, is_paused := true, manifest := m2 }
      (true, { s with active := updateA s.active rid ctx2
                      diskManifests := updateA s.diskManifests rid m2
                      diskEvents := appendEventM s.diskEvents rid "run_paused" now [] })

/-- `ExperimentEngine.complete_run`: the active context or one
reconstructed from disk; stop collectors, disconnect SSH, set
`completed_at = now` and status `completed`, save the manifest, append
`run_completed` (`EventType.RUN_COMPLETED` resolves to that value) and
drop the run from `_active_runs`. -/
def completeRun (s : EngineM) (rid : String) (now : Nat) : Bool × EngineM :=
  let ctx? := match lookupA s.active rid with
              | some c => some c
              | none => getRunContext s rid
  match ctx? with
  | none => (false, s)
  | some ctx =>
    let m2 : ManifestM :=
      { ctx.manifest with status := "completed", completed_at := some now }
    (true, { s with diskManifests := updateA s.diskManifests rid m2
                    diskEvents := appendEventM s.diskEvents rid "run_completed" now []
                    active := removeA s.active rid })

/-- Engine with one stored profile and no runs, for the create_run
claim. -/
def engC1 : EngineM :=
  { profiles := [("board-a", "name: board-a")], diskManifests := []
    diskSnapshots := [], diskEvents := [], active := [] }

def m5 : ManifestM :=
  { run_id := "r1", name := "r1", profile_name := "board-a", status := "running"
    created_at := 1, started_at := some 2, completed_at := none
    parameters := [], artifacts := [], notes := "" }

def ctx5 : RunCtxM :=
  { run_id := "r1", manifest := m5, profileName := "board-a", parameters := []
    collectors := [("cpu", true)], sshPresent := true
    is_running := true, is_paused := false }

/-- Engine with one active running run, for the complete_run claim. -/
def eng5 : EngineM :=
  { profiles := [("board-a", "name: board-a")]
    diskManifests := [("r1", m5)], diskSnapshots := [("r1", "name: board-a")]
    diskEvents := [("r1", [{ seq := 1, timestamp := 2, event_type := "run_started", data := [] }])]
    active := [("r1", ctx5)] }

def eng5a : EngineM := (completeRun eng5 "r1" 10).2

def eng5b : EngineM := (completeRun eng5a "r1" 20).2

def countType (log : List Event) (t : String) : Nat :=
  (log.filter fun e => e.event_type = t).length

def m10 : ManifestM := { m5 with run_id := "r9", name := "r9" }

/-- Engine whose run "r9" exists on disk with manifest status "running"
but is absent from the active map (an engine restarted after a crash),
for the pause_run claim. -/
def eng10 : EngineM :=
  { profiles := [("board-a", "name: board-a")]
    diskManifests := [("r9", m10)], diskSnapshots := [("r9", "name: board-a")]
    diskEvents := [("r9", [{ seq := 1, timestamp := 2, event_type := "run_started", data := [] }])]
    active := [] }

/-! ## Theorems -/

/-- Claim C1 (code bug): for an existing profile, `create_run` builds
the manifest and storage but then evaluates `EventType.RUN_CREATED`,
which is not a member of the `EventType` enum in events.py, so the call
raises `AttributeError` instead of appending `run_created` and
returning the run_id. -/
theorem create_run_raises_attribute_error :
    (lookupA engC1.profiles "board-a").isSome = true
    ∧ eventTypeAttr "RUN_CREATED" = none
    ∧ createRun engC1 "board-a" none [] 5 "2025-01-15_143022" = .error .attributeError :=
  ⟨rfl, rfl, rfl⟩

/-- Claim C2 (code bug): a healthy session executes fine and a lock-free
`connect` works, but an operation that must reconnect (here: `execute`
after the transport was forced closed) fires `on_disconnect` and then
blocks forever, because `connect()` re-acquires the non-reentrant
session lock that `execute` already holds. -/
theorem ssh_reconnect_deadlock :
    executeM true ioEcho sshLive "echo one" =
      .ok { command := "echo one", exit_code := 0, stdout := "ok", stderr := "" } sshLive
    ∧ executeM true ioEcho sshDropped "echo two" =
      .deadlock { lockHeld := true, connected := true, clientSet := true
                  transportActive := false, trace := ["on_disconnect:Connection lost"] }
    ∧ connectM true { lockHeld := false, connected := false, clientSet := false
                      transportActive := false, trace := [] } =
      .ok true { lockHeld := false, connected := true, clientSet := true
                 transportActive := true, trace := ["on_connect"] } :=
  ⟨rfl, rfl, rfl⟩

/-- Claim C7 (code bug): pulling `/a/x.log` then `/b/x.log` records
`artifacts/_temp_x_1.log` and `artifacts/_temp_x_2.log`, not
`artifacts/x.log` and `artifacts/x_1.log`: `add_artifact` derives the
destination from the scratch path's basename (its
`original_remote_path` argument is unused), and the scratch file
itself, sitting in `artifacts/`, always triggers the collision loop. -/
theorem artifact_temp_name_leak :
    pullA.1 = "artifacts/_temp_x_1.log"
    ∧ pullB.1 = "artifacts/_temp_x_2.log"
    ∧ pullA.2 = ["_temp_x_1.log"]
    ∧ pullB.2 = ["_temp_x_1.log", "_temp_x_2.log"]
    ∧ pullA.1 ≠ "artifacts/x.log"
    ∧ pullB.1 ≠ "artifacts/x_1.log" := by
  refine ⟨rfl, rfl, rfl, rfl, ?_, ?_⟩ <;> decide

/-- Claim C8, counterexample: over a file holding two well-formed event
lines and one malformed non-empty trailing line, the stream opens with
sequence counter 3 — the malformed line IS counted — and the next
append gets seq 4, where the claim predicts counter 2 and next seq 3. -/
theorem count_events_malformed_counterexample :
    (streamInit (some demoFile8)).seq = 3
    ∧ ¬ (streamInit (some demoFile8)).seq = 2
    ∧ (streamAppend (streamInit (some demoFile8))
        { event_type := "note", timestamp := 102, data := [] }).2.seq = 4 := by
  refine ⟨rfl, ?_, rfl⟩
  decide

theorem appendAll_inv (ops : List AppendOp) :
    ∀ (f : List RawLine) (k : Nat),
      f.map seqOfLine = (List.range k).map (fun n => some (n + 1)) →
      (appendAll { file := f, seq := k } ops).file.map seqOfLine
        = (List.range (k + ops.length)).map fun n => some (n + 1) := by
  induction ops with
  | nil => intro f k h; simpa using h
  | cons op ops ih =>
    intro f k h
    have step : appendAll { file := f, seq := k } (op :: ops)
        = appendAll { file := f ++ [RawLine.ev
            { seq := k + 1, timestamp := op.timestamp
              event_type := op.event_type, data := op.data }], seq := k + 1 } ops := rfl
    rw [step]
    have h2 : (f ++ [RawLine.ev
        { seq := k + 1, timestamp := op.timestamp
          event_type := op.event_type, data := op.data }]).map seqOfLine
        = (List.range (k + 1)).map fun n => some (n + 1) := by
      rw [List.map_append, h, List.range_succ, List.map_append]
      rfl
    have h3 := ih _ _ h2
    rw [h3]
    have : k + 1 + ops.length = k + (ops.length + 1) := by omega
    rw [this]
    rfl

theorem appendAll_seq (ops : List AppendOp) :
    ∀ (f : List RawLine) (k : Nat),
      (appendAll { file := f, seq := k } ops).seq = k + ops.length := by
  induction ops with
  | nil => intro f k; rfl
  | cons op ops ih =>
    intro f k
    have step : appendAll { file := f, seq := k } (op :: ops)
        = appendAll { file := f ++ [RawLine.ev
            { seq := k + 1, timestamp := op.timestamp
              event_type := op.event_type, data := op.data }], seq := k + 1 } ops := rfl
    rw [step, ih]
    simp only [List.length_cons]
    omega

/-- Claim C3: starting from a fresh stream (no pre-existing file), any
sequence of `append` calls produces a file whose line n (1-based) is a
well-formed event with seq = n — seqs start at 1 and step by exactly 1
with no gap and no reordering — and one further `append` only adds a
line at the end of the file (line N+1, seq N+1), overwriting nothing. -/
theorem eventstream_seq_contiguous (ops : List AppendOp) (op : AppendOp) :
    (appendAll (streamInit none) ops).file.map seqOfLine
      = ((List.range ops.length).map fun n => some (n + 1))
    ∧ (appendAll (streamInit none) (ops ++ [op])).file
      = (appendAll (streamInit none) ops).file
        ++ [.ev { seq := ops.length + 1, timestamp := op.timestamp
                  event_type := op.event_type, data := op.data }] := by
  constructor
  · have h := appendAll_inv ops [] 0 (by simp)
    simpa using h
  · have hfold : appendAll (streamInit none) (ops ++ [op])
        = (streamAppend (appendAll (streamInit none) ops) op).1 := by
      simp [appendAll, List.foldl_append]
    have hseq : (appendAll (streamInit none) ops).seq = ops.length := by
      have h := appendAll_seq ops [] 0
      simpa [streamInit] using h
    rw [hfold]
    show (appendAll (streamInit none) ops).file ++ [_] = _
    rw [hseq]

/-- Claim C8, amended: on construction over an existing file the
sequence counter counts ALL non-empty lines — well-formed or malformed
alike (`_count_events` never parses a line, so counting itself cannot
fail) — and the next append writes a well-formed line with seq equal to
that count plus one; a malformed non-empty line contributes one to the
count exactly like an event line does. -/
theorem count_events_amended (f : List RawLine) (op : AppendOp) :
    (streamInit (some f)).seq = countEvents f
    ∧ (streamAppend (streamInit (some f)) op).2
        = { seq := countEvents f + 1, timestamp := op.timestamp
            event_type := op.event_type, data := op.data }
    ∧ (streamAppend (streamInit (some f)) op).1.file
        = f ++ [.ev { seq := countEvents f + 1, timestamp := op.timestamp
                      event_type := op.event_type, data := op.data }]
    ∧ countEvents (f ++ [.raw "xyz-not-json"]) = countEvents f + 1
    ∧ countEvents (f ++ [.ev (streamAppend (streamInit (some f)) op).2])
        = countEvents f + 1 := by
  refine ⟨rfl, rfl, rfl, ?_, ?_⟩ <;>
    simp [countEvents, List.filter_append, lineNonEmpty]

/-- Claim C10: `pause_run` consults only the in-memory `_active_runs`
map; for any engine state and any run_id absent from that map — whatever
the on-disk manifest says — it returns `False` and leaves the whole
engine state (manifests, event logs, active map) untouched. -/
theorem pause_run_inactive_noop (s : EngineM) (rid : String) (now : Nat)
    (h : lookupA s.active rid = none) :
    pauseRun s rid now = (false, s) := by
  simp [pauseRun, h]

/-- Claim C10, witness: run "r9" exists on disk with manifest status
"running" but is not in the active map; pausing it fails and changes
nothing. -/
theorem pause_run_inactive_noop_witness :
    lookupA eng10.active "r9" = none
    ∧ (lookupA eng10.diskManifests "r9").map ManifestM.status = some "running"
    ∧ pauseRun eng10 "r9" 7 = (false, eng10) :=
  ⟨rfl, rfl, pause_run_inactive_noop eng10 "r9" 7 rfl⟩

/-- Claim C4, counterexample: a YAML document with no `connection`
section at all (hence no `connection.host`) loads successfully, with
the host silently defaulting to `"localhost"` — not a load error as
the claim states. -/
theorem profile_missing_host_loads_counterexample :
    (fromYamlData "profiles/p.yaml" (.map [("name", .str "p")])).map
      (fun p => p.connection.host) = .ok (.str "localhost") := rfl

/-- Claim C5, counterexample: completing run "r1" twice (at ticks 10
and 20) appends a second `run_completed` event and overwrites
`completed_at`, so the second call does not leave the manifest and the
event log unchanged. -/
theorem complete_run_not_idempotent_counterexample :
    (completeRun eng5a "r1" 20).1 = true
    ∧ countType (eventsOf eng5a "r1") "run_completed" = 1
    ∧ countType (eventsOf eng5b "r1") "run_completed" = 2
    ∧ (lookupA eng5a.diskManifests "r1").map ManifestM.completed_at = some (some 10)
    ∧ (lookupA eng5b.diskManifests "r1").map ManifestM.completed_at = some (some 20) :=
  ⟨rfl, rfl, rfl, rfl, rfl⟩

/-- Claim C6, counterexample: `T = "\x7bx\x7ba\x7dy\x7d"` contains
exactly the placeholder set of `P = \x7ba = b\x7d` (the only `findall`
match is `a`), yet the substituted result `"\x7bxby\x7d"` contains the
token `\x7bxby\x7d`. -/
theorem substitute_token_counterexample :
    extractFound [lbrace, 'x', lbrace, 'a', rbrace, 'y', rbrace] = ["a"]
    ∧ [("a", "b")].map Prod.fst = ["a"]
    ∧ substChars [("a", "b")] [lbrace, 'x', lbrace, 'a', rbrace, 'y', rbrace]
        = [lbrace, 'x', 'b', 'y', rbrace]
    ∧ hasToken (substChars [("a", "b")] [lbrace, 'x', lbrace, 'a', rbrace, 'y', rbrace])
        = true := by
  refine ⟨?_, rfl, ?_, ?_⟩ <;> decide

theorem dropWhile_length_le {α : Type} (p : α → Bool) (l : List α) :
    (l.dropWhile p).length ≤ l.length := by
  induction l with
  | nil => simp
  | cons a l ih =>
    rw [List.dropWhile_cons]
    by_cases h : p a
    · simp only [if_pos h]
      exact Nat.le_trans ih (Nat.le_succ _)
    · simp [if_neg h]

theorem substGo_fuel (P : List (String × String)) :
    ∀ (f1 : Nat) (l : List Char) (f2 : Nat), l.length ≤ f1 → l.length ≤ f2 →
      substGo P f1 l = substGo P f2 l := by
  intro f1
  induction f1 with
  | zero =>
    intro l f2 h1 _
    have hl : l = [] := by
      cases l with
      | nil => rfl
      | cons c rest => simp at h1
    subst hl
    cases f2 with
    | zero => rfl
    | succ f2 => rfl
  | succ f ih =>
    intro l f2 h1 h2
    cases l with
    | nil =>
      cases f2 with
      | zero => rfl
      | succ f2 => rfl
    | cons c rest =>
      cases f2 with
      | zero => simp at h2
      | succ f2 =>
        have hr : rest.length ≤ f := by simpa using h1
        have hr2 : rest.length ≤ f2 := by simpa using h2
        simp only [substGo]
        by_cases hc : c = lbrace
        · simp only [if_pos hc]
          cases hdw : rest.dropWhile isWordChar with
          | nil => rw [ih rest f2 hr hr2]
          | cons d tail =>
            have hlen : tail.length < rest.length := by
              have hle := dropWhile_length_le isWordChar rest
              rw [hdw] at hle
              simpa using hle
            by_cases hd : d = rbrace
            · simp only [if_pos hd]
              by_cases he : (rest.takeWhile isWordChar).isEmpty
              · simp only [if_pos he]
                rw [ih rest f2 hr hr2]
              · simp only [if_neg he]
                rw [ih tail f2 (by omega) (by omega)]
            · simp only [if_neg hd]
              rw [ih rest f2 hr hr2]
        · simp only [if_neg hc]
          rw [ih rest f2 hr hr2]

theorem substChars_cons_ne (P : List (String × String)) (c : Char) (l : List Char)
    (h : ¬ c = lbrace) : substChars P (c :: l) = c :: substChars P l := by
  show substGo P (l.length + 1) (c :: l) = c :: substGo P l.length l
  simp only [substGo, if_neg h]

theorem isWordChar_rbrace : isWordChar rbrace = false := by decide

theorem substChars_token (P : List (String × String)) (nm tail : List Char)
    (h1 : ¬ nm = []) (h2 : ∀ c ∈ nm, isWordChar c = true) :
    substChars P (lbrace :: (nm ++ rbrace :: tail)) =
      (match lookupParam P (String.mk nm) with
       | some v => v.data
       | none => lbrace :: (nm ++ [rbrace])) ++ substChars P tail := by
  have hdw : (nm ++ rbrace :: tail).dropWhile isWordChar = rbrace :: tail := by
    rw [List.dropWhile_append_of_pos h2, List.dropWhile_cons_of_neg]
    simp [isWordChar_rbrace]
  have htw : (nm ++ rbrace :: tail).takeWhile isWordChar = nm := by
    rw [List.takeWhile_append_of_pos h2, List.takeWhile_cons_of_neg]
    · simp
    · simp [isWordChar_rbrace]
  have hni : nm.isEmpty = false := by
    cases nm with
    | nil => exact absurd rfl h1
    | cons a l => rfl
  show substGo P ((nm ++ rbrace :: tail).length + 1) (lbrace :: (nm ++ rbrace :: tail))
    = _
  simp only [substGo, hdw, htw]
  simp only [if_true, hni, Bool.false_eq_true, if_false]
  congr 1
  exact substGo_fuel P (nm ++ rbrace :: tail).length tail tail.length
    (by simp; omega) (Nat.le_refl _)

theorem substChars_append_free (P : List (String × String)) (s l : List Char)
    (h : ∀ c ∈ s, ¬ c = lbrace) :
    substChars P (s ++ l) = s ++ substChars P l := by
  induction s with
  | nil => simp
  | cons c s ih =>
    rw [List.cons_append, substChars_cons_ne P c (s ++ l) (h c (by simp)),
      ih fun c hc => h c (by simp [hc])]
    rfl

/-- Claim C9: substitution is single-pass.  Whenever the template starts
with the placeholder of `name` and `params` maps `name` to `v`, the
result is `v` emitted verbatim followed by the substitution of the rest
of the template: `v` itself is never rescanned, so placeholder-shaped
text inside a substituted value is not expanded. -/
theorem substitute_single_pass (P : List (String × String)) (nm v : String)
    (tail : List Char) (h1 : lookupParam P nm = some v) (h2 : ¬ nm.data = [])
    (h3 : ∀ c ∈ nm.data, isWordChar c = true) :
    substChars P (lbrace :: (nm.data ++ rbrace :: tail)) = v.data ++ substChars P tail := by
  rw [substChars_token P nm.data tail h2 h3]
  have hmk : String.mk nm.data = nm := rfl
  rw [hmk, h1]

/-- Claim C9, witness: with `a = "\x7bb\x7d"` and `b = "c"` in the map,
substituting `"\x7ba\x7d"` yields the literal text `"\x7bb\x7d"` — the
inserted value is not recursively expanded to `"c"`. -/
theorem substitute_single_pass_witness :
    lookupParam [("a", String.mk [lbrace, 'b', rbrace]), ("b", "c")] "a"
      = some (String.mk [lbrace, 'b', rbrace])
    ∧ substChars [("a", String.mk [lbrace, 'b', rbrace]), ("b", "c")]
        (lbrace :: ("a".data ++ rbrace :: []))
      = (String.mk [lbrace, 'b', rbrace]).data
        ++ substChars [("a", String.mk [lbrace, 'b', rbrace]), ("b", "c")] [] :=
  ⟨rfl,
    substitute_single_pass [("a", String.mk [lbrace, 'b', rbrace]), ("b", "c")]
      "a" (String.mk [lbrace, 'b', rbrace]) [] rfl (by decide) (by decide)⟩

theorem braceFree_not_lb {s : List Char} (h : braceFree s = true) :
    ∀ c ∈ s, ¬ c = lbrace := by
  intro c hc
  have h2 := (List.all_eq_true.mp h) c hc
  simp at h2
  exact h2.1

theorem hasToken_eq_false {l : List Char} (h : ∀ c ∈ l, ¬ c = lbrace) :
    hasToken l = false := by
  induction l with
  | nil => rfl
  | cons c rest ih =>
    have hc : ¬ c = lbrace := h c (by simp)
    simp only [hasToken, if_neg hc]
    exact ih fun d hd => h d (by simp [hd])

theorem lookupParam_braceFree {P : List (String × String)} {k v : String}
    (hall : valuesBraceFree P = true) (hl : lookupParam P k = some v) :
    braceFree v.data = true := by
  induction P with
  | nil => cases hl
  | cons kv rest ih =>
    obtain ⟨k0, v0⟩ := kv
    simp only [valuesBraceFree, List.all_cons, Bool.and_eq_true] at hall
    simp only [lookupParam] at hl
    by_cases hk : k0 = k
    · rw [if_pos hk] at hl
      cases hl
      exact hall.1
    · rw [if_neg hk] at hl
      exact ih hall.2 hl

theorem substChars_renderT (P : List (String × String)) (t : Tmpl)
    (hw : wfT t = true) : substChars P (renderT t) = substExpected P t := by
  induction t with
  | nil => rfl
  | lit s rest ih =>
    simp only [wfT, Bool.and_eq_true] at hw
    simp only [renderT, substExpected]
    rw [substChars_append_free P s (renderT rest) (braceFree_not_lb hw.1), ih hw.2]
  | hole nm rest ih =>
    simp only [wfT, Bool.and_eq_true] at hw
    obtain ⟨⟨h1, h2⟩, h3⟩ := hw
    have hne : ¬ nm = [] := by
      cases nm with
      | nil => simp at h1
      | cons a l => simp
    have hword : ∀ c ∈ nm, isWordChar c = true := List.all_eq_true.mp h2
    simp only [renderT, substExpected]
    rw [substChars_token P nm (renderT rest) hne hword, ih h3]

theorem substExpected_not_lb (P : List (String × String)) (t : Tmpl)
    (hw : wfT t = true) (hv : valuesBraceFree P = true)
    (hc : holesCovered P t = true) :
    ∀ c ∈ substExpected P t, ¬ c = lbrace := by
  induction t with
  | nil => intro c hmem; simp [substExpected] at hmem
  | lit s rest ih =>
    simp only [wfT, Bool.and_eq_true] at hw
    simp only [holesCovered] at hc
    intro c hmem
    simp only [substExpected, List.mem_append] at hmem
    cases hmem with
    | inl h => exact braceFree_not_lb hw.1 c h
    | inr h => exact ih hw.2 hc c h
  | hole nm rest ih =>
    simp only [wfT, Bool.and_eq_true] at hw
    obtain ⟨⟨_, _⟩, h3⟩ := hw
    simp only [holesCovered, Bool.and_eq_true] at hc
    obtain ⟨hsome, hcr⟩ := hc
    obtain ⟨v, hv2⟩ := Option.isSome_iff_exists.mp hsome
    intro c hmem
    simp only [substExpected, hv2, List.mem_append] at hmem
    cases hmem with
    | inl h => exact braceFree_not_lb (lookupParam_braceFree hv hv2) c h
    | inr h => exact ih h3 hcr c h

/-- Claim C6, amended: `substitute_parameters` replaces each placeholder
whose name is a key with its value and leaves unmatched placeholders
verbatim (stated over the structured template view `Tmpl`); and the
"no token remains" consequence holds under the premise — which the
counterexample shows is necessary — that every brace of the template
belongs to a placeholder, every placeholder name is a key of the map,
and no parameter value contains a brace. -/
theorem substitute_no_token_amended (P : List (String × String)) (t : Tmpl)
    (hw : wfT t = true) (hv : valuesBraceFree P = true) :
    substChars P (renderT t) = substExpected P t
    ∧ (holesCovered P t = true → hasToken (substChars P (renderT t)) = false) := by
  refine ⟨substChars_renderT P t hw, fun hc => ?_⟩
  rw [substChars_renderT P t hw]
  exact hasToken_eq_false (substExpected_not_lb P t hw hv hc)

/-- Claim C6, amended claim witness: the template `"echo \x7bwho\x7d"`
with `who = world` substitutes to `"echo world"` and the result has no
placeholder token. -/
theorem substitute_no_token_amended_witness :
    substChars [("who", "world")]
        (renderT (Tmpl.lit "echo ".data (Tmpl.hole "who".data Tmpl.nil)))
      = substExpected [("who", "world")]
          (Tmpl.lit "echo ".data (Tmpl.hole "who".data Tmpl.nil))
    ∧ hasToken (substChars [("who", "world")]
        (renderT (Tmpl.lit "echo ".data (Tmpl.hole "who".data Tmpl.nil)))) = false :=
  ⟨(substitute_no_token_amended [("who", "world")]
      (Tmpl.lit "echo ".data (Tmpl.hole "who".data Tmpl.nil))
      (by decide) (by decide)).1,
   (substitute_no_token_amended [("who", "world")]
      (Tmpl.lit "echo ".data (Tmpl.hole "who".data Tmpl.nil))
      (by decide) (by decide)).2 (by decide)⟩

theorem lookupY_append_ne (es : List (String × YVal)) (k key : String) (v : YVal)
    (h : ¬ k = key) : lookupY (es ++ [(k, v)]) key = lookupY es key := by
  induction es with
  | nil => simp [lookupY, if_neg h]
  | cons kv rest ih =>
    obtain ⟨k0, v0⟩ := kv
    simp only [List.cons_append, lookupY]
    by_cases hk : k0 = key
    · rw [if_pos hk, if_pos hk]
    · rw [if_neg hk, if_neg hk]
      exact ih

theorem pyGetD_append_ne (es : List (String × YVal)) (k key : String) (v d : YVal)
    (h : ¬ k = key) :
    pyGetD (.map (es ++ [(k, v)])) key d = pyGetD (.map es) key d := by
  simp [pyGetD, lookupY_append_ne es k key v h]

/-- Claim C4, amended: a `connection` section that lacks `host` (or is
absent, falling back to the empty dict) parses successfully with host
defaulting to `"localhost"`; a malformed (non-mapping) `connection`
value is the case that raises; and unknown keys — whether at the top
level or inside `connection` — never change the result of loading. -/
theorem profile_load_amended (cs es : List (String × YVal)) (w : YVal)
    (k1 k2 : String) (v1 v2 : YVal) (fp : String)
    (h1 : lookupY cs "host" = none)
    (h2 : w.isMap = false)
    (h3 : ¬ k1 ∈ ["name", "description", "connection", "commands",
                  "background_collectors"])
    (h4 : ¬ k2 ∈ ["host", "port", "user", "key_file", "password", "timeout"]) :
    (parseConnection (.map cs)).map ConnectionProfileM.host = .ok (.str "localhost")
    ∧ parseConnection w = .error .attributeError
    ∧ fromYamlData fp (.map (es ++ [(k1, v1)])) = fromYamlData fp (.map es)
    ∧ parseConnection (.map (cs ++ [(k2, v2)])) = parseConnection (.map cs) := by
  refine ⟨?_, ?_, ?_, ?_⟩
  · simp [parseConnection, pyGetD, h1, Except.map, bind, Except.bind, pure, Except.pure]
  · cases w with
    | map es2 => simp [YVal.isMap] at h2
    | str s => rfl
    | int n => rfl
    | bool b => rfl
    | null => rfl
    | list l => rfl
  · simp only [List.mem_cons, List.not_mem_nil, or_false, not_or] at h3
    obtain ⟨e1, e2, e3, e4, e5⟩ := h3
    simp only [fromYamlData,
      pyGetD_append_ne _ _ _ _ _ e1, pyGetD_append_ne _ _ _ _ _ e2,
      pyGetD_append_ne _ _ _ _ _ e3, pyGetD_append_ne _ _ _ _ _ e4,
      pyGetD_append_ne _ _ _ _ _ e5]
  · simp only [List.mem_cons, List.not_mem_nil, or_false, not_or] at h4
    obtain ⟨e1, e2, e3, e4, e5, e6⟩ := h4
    simp only [parseConnection,
      pyGetD_append_ne _ _ _ _ _ e1, pyGetD_append_ne _ _ _ _ _ e2,
      pyGetD_append_ne _ _ _ _ _ e3, pyGetD_append_ne _ _ _ _ _ e4,
      pyGetD_append_ne _ _ _ _ _ e5, pyGetD_append_ne _ _ _ _ _ e6]

/-- Claim C4, amended claim witness: a connection section carrying only
`port` yields host `"localhost"`; a string-valued connection section is
an `AttributeError`; appending unknown keys `extra_key` / `extra`
leaves loading unchanged. -/
theorem profile_load_amended_witness :
    (parseConnection (.map [("port", .int 2222)])).map ConnectionProfileM.host
      = .ok (.str "localhost")
    ∧ parseConnection (.str "oops") = .error .attributeError
    ∧ fromYamlData "profiles/p.yaml" (.map ([("name", .str "p")] ++ [("extra_key", .int 1)]))
      = fromYamlData "profiles/p.yaml" (.map [("name", .str "p")])
    ∧ parseConnection (.map ([("port", .int 2222)] ++ [("extra", .int 1)]))
      = parseConnection (.map [("port", .int 2222)]) :=
  profile_load_amended [("port", .int 2222)] [("name", .str "p")] (.str "oops")
    "extra_key" "extra" (.int 1) (.int 1) "profiles/p.yaml"
    rfl rfl (by decide) (by decide)

theorem lookupA_updateA_self {α : Type} (l : List (String × α)) (k : String) (v : α) :
    lookupA (updateA l k v) k = some v := by
  induction l with
  | nil => simp [updateA, lookupA]
  | cons kv rest ih =>
    obtain ⟨k0, v0⟩ := kv
    simp only [updateA]
    by_cases hk : k0 = k
    · rw [if_pos hk]
      simp [lookupA]
    · rw [if_neg hk]
      simp only [lookupA]
      rw [if_neg hk]
      exact ih

theorem lookupA_removeA_self {α : Type} (l : List (String × α)) (k : String) :
    lookupA (removeA l k) k = none := by
  induction l with
  | nil => rfl
  | cons kv rest ih =>
    obtain ⟨k0, v0⟩ := kv
    simp only [removeA, List.filter_cons]
    by_cases hk : k0 = k
    · simp only [hk, bne_self_eq_false]
      exact ih
    · have hb : (k0 != k) = true := by simp [bne, hk]
      simp only [hb, if_true]
      simp only [lookupA]
      rw [if_neg hk]
      exact ih

theorem lookupA_appendEventM (d : List (String × List Event)) (rid : String)
    (etype : String) (ts : Nat) (data : List (String × JVal)) :
    lookupA (appendEventM d rid etype ts data) rid
      = some ((lookupA d rid).getD []
          ++ [{ seq := ((lookupA d rid).getD []).length + 1, timestamp := ts
                event_type := etype, data := data }]) := by
  unfold appendEventM
  cases h : lookupA d rid with
  | none => simp [h, lookupA_updateA_self]
  | some log => simp [h, lookupA_updateA_self]

theorem completeRun_of_active (s : EngineM) (rid : String) (ctx : RunCtxM)
    (t : Nat) (ha : lookupA s.active rid = some ctx) :
    completeRun s rid t
      = (true,
         { s with
           diskManifests := updateA s.diskManifests rid
             { ctx.manifest with status := "completed", completed_at := some t }
           diskEvents := appendEventM s.diskEvents rid "run_completed" t []
           active := removeA s.active rid }) := by
  simp [completeRun, ha]

theorem completeRun_of_reload (s : EngineM) (rid : String) (ctx : RunCtxM)
    (t : Nat) (ha : lookupA s.active rid = none)
    (hg : getRunContext s rid = some ctx) :
    completeRun s rid t
      = (true,
         { s with
           diskManifests := updateA s.diskManifests rid
             { ctx.manifest with status := "completed", completed_at := some t }
           diskEvents := appendEventM s.diskEvents rid "run_completed" t []
           active := removeA s.active rid }) := by
  simp [completeRun, ha, hg]

/-- Claim C5, amended: `complete_run` stops collectors, disconnects
SSH, sets `completed_at`, sets status `completed`, appends exactly one
`run_completed` event and removes the run from the active map — but it
is NOT idempotent on the manifest and the event log: a second call on
the same run succeeds again, overwrites `completed_at` with the new
time and appends a second `run_completed` event; only the status value
and the absence from the active map are stable. -/
theorem complete_run_amended (s : EngineM) (rid : String) (ctx : RunCtxM)
    (t1 t2 : Nat) (hac : lookupA s.active rid = some ctx)
    (hp : (lookupA s.profiles ctx.manifest.profile_name).isSome = true) :
    (completeRun s rid t1).1 = true
    ∧ lookupA (completeRun s rid t1).2.active rid = none
    ∧ lookupA (completeRun s rid t1).2.diskManifests rid
        = some { ctx.manifest with status := "completed", completed_at := some t1 }
    ∧ eventsOf (completeRun s rid t1).2 rid
        = eventsOf s rid
          ++ [{ seq := (eventsOf s rid).length + 1, timestamp := t1
                event_type := "run_completed", data := [] }]
    ∧ (completeRun (completeRun s rid t1).2 rid t2).1 = true
    ∧ lookupA (completeRun (completeRun s rid t1).2 rid t2).2.diskManifests rid
        = some { ctx.manifest with status := "completed", completed_at := some t2 }
    ∧ eventsOf (completeRun (completeRun s rid t1).2 rid t2).2 rid
        = eventsOf (completeRun s rid t1).2 rid
          ++ [{ seq := (eventsOf (completeRun s rid t1).2 rid).length + 1, timestamp := t2
                event_type := "run_completed", data := [] }]
    ∧ lookupA (completeRun (completeRun s rid t1).2 rid t2).2.active rid = none := by
  have h1 := completeRun_of_active s rid ctx t1 hac
  obtain ⟨ytext, hy⟩ := Option.isSome_iff_exists.mp hp
  have hax : lookupA (completeRun s rid t1).2.active rid = none := by
    rw [h1]
    exact lookupA_removeA_self s.active rid
  have hdm : lookupA (completeRun s rid t1).2.diskManifests rid
      = some { ctx.manifest with status := "completed", completed_at := some t1 } := by
    rw [h1]
    exact lookupA_updateA_self s.diskManifests rid _
  have hev1 : eventsOf (completeRun s rid t1).2 rid
      = eventsOf s rid
        ++ [{ seq := (eventsOf s rid).length + 1, timestamp := t1
              event_type := "run_completed", data := [] }] := by
    rw [h1]
    show (lookupA (appendEventM s.diskEvents rid "run_completed" t1 []) rid).getD [] = _
    rw [lookupA_appendEventM]
    rfl
  have hctx2 : getRunContext (completeRun s rid t1).2 rid
      = some { run_id := rid
               manifest := { ctx.manifest with status := "completed", completed_at := some t1 }
               profileName := ctx.manifest.profile_name
               parameters := ctx.manifest.parameters, collectors := []
               sshPresent := false, is_running := false, is_paused := false } := by
    simp [getRunContext, hax, hdm]
    rw [show (completeRun s rid t1).2.profiles = s.profiles from by rw [h1]]
    simp [hy]
  have h2 := completeRun_of_reload (completeRun s rid t1).2 rid _ t2 hax hctx2
  refine ⟨by rw [h1], hax, hdm, hev1, by rw [h2], ?_, ?_, ?_⟩
  · rw [h2]
    exact lookupA_updateA_self _ rid _
  · rw [h2]
    show (lookupA (appendEventM (completeRun s rid t1).2.diskEvents rid
      "run_completed" t2 []) rid).getD [] = _
    rw [lookupA_appendEventM]
    rfl
  · rw [h2]
    exact lookupA_removeA_self _ rid

/-- Claim C5, amended claim witness: the demo engine with active run
"r1", completed at ticks 10 then 20, exhibits all the amended
behaviors. -/
theorem complete_run_amended_witness :
    (completeRun eng5 "r1" 10).1 = true
    ∧ lookupA (completeRun eng5 "r1" 10).2.active "r1" = none
    ∧ lookupA (completeRun eng5 "r1" 10).2.diskManifests "r1"
        = some { m5 with status := "completed", completed_at := some 10 }
    ∧ eventsOf (completeRun eng5 "r1" 10).2 "r1"
        = eventsOf eng5 "r1"
          ++ [{ seq := (eventsOf eng5 "r1").length + 1, timestamp := 10
                event_type := "run_completed", data := [] }]
    ∧ (completeRun (completeRun eng5 "r1" 10).2 "r1" 20).1 = true
    ∧ lookupA (completeRun (completeRun eng5 "r1" 10).2 "r1" 20).2.diskManifests "r1"
        = some { m5 with status := "completed", completed_at := some 20 }
    ∧ eventsOf (completeRun (completeRun eng5 "r1" 10).2 "r1" 20).2 "r1"
        = eventsOf (completeRun eng5 "r1" 10).2 "r1"
          ++ [{ seq := (eventsOf (completeRun eng5 "r1" 10).2 "r1").length + 1, timestamp := 20
                event_type := "run_completed", data := [] }]
    ∧ lookupA (completeRun (completeRun eng5 "r1" 10).2 "r1" 20).2.active "r1" = none :=
  complete_run_amended eng5 "r1" ctx5 10 20 rfl rfl

end ECR
